import Mathlib

set_option maxHeartbeats 1000000

/- Verification development for the job_shop_lib incremental dispatching engine
and its observers.  The observer and graph-updater definitions are translated
from the library's Python sources; the dispatching engine itself (instance
model, availability indices, commit) is modelled from the specification, as
noted in the individual doc comments. -/

/-- Error taxonomy of the library.  The sources raise ValidationError for
precondition violations and UninitializedAttributeError for accessors used
before their prerequisite configuration; both derive from JobShopLibError. -/
inductive JobShopLibError where
  | ValidationError (msg : String)
  | UninitializedAttributeError (msg : String)
  deriving DecidableEq

/-- An operation of a job-shop instance: it belongs to one job, has a list of
eligible machines (machine ids) and a fixed duration.  Its position within the
job is its index in the job's operation list.  Identified by a dense integer
operation_id. -/
structure Operation where
  operation_id : Nat
  job_id : Nat
  machines : List Nat
  duration : Nat
  deriving DecidableEq

/-- An operation bound to a chosen machine and start time; the end time is
derived as start plus duration. -/
structure ScheduledOperation where
  operation : Operation
  machine_id : Nat
  start_time : Nat
  deriving DecidableEq

def ScheduledOperation.end_time (so : ScheduledOperation) : Nat :=
  so.start_time + so.operation.duration

def ScheduledOperation.job_id (so : ScheduledOperation) : Nat :=
  so.operation.job_id

def ScheduledOperation.operation_id (so : ScheduledOperation) : Nat :=
  so.operation.operation_id

/-- Modelled from the spec: a JobShopInstance is a set of jobs, each an ordered
sequence of operations; machines are implied by the operations' eligible
machine lists, with dense ids below num_machines. -/
structure JobShopInstance where
  jobs : List (List Operation)
  deriving DecidableEq

def JobShopInstance.num_jobs (i : JobShopInstance) : Nat := i.jobs.length

def JobShopInstance.operations (i : JobShopInstance) : List Operation :=
  i.jobs.flatten

def JobShopInstance.num_operations (i : JobShopInstance) : Nat :=
  i.operations.length

/-- Modelled from the spec: the implied machine-id space is dense, so the
number of machines is the least bound above every machine id referenced by an
operation. -/
def JobShopInstance.num_machines (i : JobShopInstance) : Nat :=
  (i.operations.map (fun op' => op'.machines.foldr (fun m acc => max (m + 1) acc) 0)).foldr max 0

/-- Modelled from the spec: the dispatching engine owns a schedule (here a flat
list in commit order; per-machine sequences are the filtrations by machine_id),
per-machine and per-job next-available-time indices, and the set of
unscheduled operations.  The source class is Dispatcher, which is not among
the provided source files; only its observers are. -/
structure Dispatcher where
  inst : JobShopInstance
  machine_next_available_time : List Nat
  job_next_available_time : List Nat
  unscheduled : List Operation
  schedule : List ScheduledOperation
  deriving DecidableEq

/-- Modelled from the spec: all derived state initializes from an empty
schedule: both indices all zero, every operation unscheduled. -/
def Dispatcher.initial (i : JobShopInstance) : Dispatcher :=
  { inst := i,
    machine_next_available_time := List.replicate i.num_machines 0,
    job_next_available_time := List.replicate i.num_jobs 0,
    unscheduled := i.operations,
    schedule := [] }

def Dispatcher.machineNext (d : Dispatcher) (m : Nat) : Nat :=
  d.machine_next_available_time.getD m 0

def Dispatcher.jobNext (d : Dispatcher) (j : Nat) : Nat :=
  d.job_next_available_time.getD j 0

/-- Minimum of a list of naturals (0 on the empty list; eligible machine lists
are nonempty by instance validation). -/
def minList : List Nat → Nat
  | [] => 0
  | x :: xs => xs.foldl min x

/-- Modelled from the spec: earliest_start_time(operation) returns
max(job_next_available_time of the operation's job, min over the operation's
eligible machines m of machine_next_available_time m) when no machine is
pre-selected, and uses the pre-selected machine's entry in place of the
minimum when the caller is choosing one. -/
def Dispatcher.earliest_start_time (d : Dispatcher) (op : Operation) (machine_id : Option Nat) : Nat :=
  match machine_id with
  | some m => max (d.jobNext op.job_id) (d.machineNext m)
  | none => max (d.jobNext op.job_id) (minList (op.machines.map d.machineNext))

/-- Modelled from the spec: current_time is the start time of the most
recently committed operation, 0 if none has been committed. -/
def Dispatcher.current_time (d : Dispatcher) : Nat :=
  match d.schedule.getLast? with
  | some so => so.start_time
  | none => 0

/-- Modelled from the spec: completed_operations is the engine-tracked set of
operations already finished, i.e. the scheduled operations whose end time is
at most the current time. -/
def Dispatcher.completed_operations (d : Dispatcher) : List Operation :=
  (d.schedule.filter (fun so => decide (so.end_time ≤ d.current_time))).map
    (fun so => so.operation)

/-- Modelled from the spec: commit(operation, machine, start_time) fails with
ValidationError if the machine is not eligible, if the operation is already
scheduled (i.e. no longer in the engine's unscheduled set), or if the start
time is below earliest_start_time(operation, machine); on success it appends
the scheduled operation, advances both next-available-time indices to
start plus duration, and removes the operation from the unscheduled set. -/
def Dispatcher.commit (d : Dispatcher) (op : Operation) (m : Nat) (t : Nat) :
    Except JobShopLibError Dispatcher :=
  if m ∉ op.machines then
    .error (.ValidationError ("machine not eligible for operation"))
  else if op ∉ d.unscheduled then
    .error (.ValidationError ("operation is already scheduled"))
  else if t < d.earliest_start_time op (some m) then
    .error (.ValidationError ("start time below earliest start time"))
  else
    .ok { d with
      machine_next_available_time :=
        d.machine_next_available_time.set m (t + op.duration),
      job_next_available_time :=
        d.job_next_available_time.set op.job_id (t + op.duration),
      unscheduled := d.unscheduled.erase op,
      schedule := d.schedule ++ [ScheduledOperation.mk op m t] }

/-- True exactly on results that are a ValidationError. -/
def isValidationError {α : Type} : Except JobShopLibError α → Bool
  | .error (.ValidationError _) => true
  | _ => false

/-- Full scan of the engine's unscheduled operations: how many remain eligible
on machine m. -/
def Dispatcher.remainingMachineScan (d : Dispatcher) (m : Nat) : Int :=
  (d.unscheduled.countP (fun op' => decide (m ∈ op'.machines)) : Int)

/-- Full scan of the engine's unscheduled operations: how many remain in
job j. -/
def Dispatcher.remainingJobScan (d : Dispatcher) (j : Nat) : Int :=
  (d.unscheduled.countP (fun op' => decide (op'.job_id = j)) : Int)

/-- Feature domains a feature observer can track (FeatureType enum of the
sources). -/
inductive FeatureType where
  | OPERATIONS
  | MACHINES
  | JOBS
  deriving DecidableEq

/-- The feature_types argument accepted by feature-observer constructors: a
single feature type, a list of feature types, or None meaning all supported
types. -/
inductive FeatureTypesRequest where
  | single (ft : FeatureType)
  | ofList (fts : List FeatureType)
  | noneRequest
  deriving DecidableEq

/-- FeatureObserver._get_feature_types_list from the sources: a single feature
type is wrapped in a list and returned; None yields all supported types; a
list is checked element by element against the supported types and a
ValidationError is raised on the first unsupported one. -/
def getFeatureTypesList (supported : List FeatureType) (request : FeatureTypesRequest) :
    Except JobShopLibError (List FeatureType) :=
  match request with
  | .single ft => .ok [ft]
  | .noneRequest => .ok supported
  | .ofList fts =>
      if fts.all (fun ft => decide (ft ∈ supported)) then .ok fts
      else .error (.ValidationError ("Feature type is not supported."))

/-- Number of feature-table rows per tracked domain, from
FeatureObserver.__init__ of the sources. -/
def numberOfEntities (d : Dispatcher) (ft : FeatureType) : Nat :=
  match ft with
  | .OPERATIONS => d.inst.num_operations
  | .MACHINES => d.inst.num_machines
  | .JOBS => d.inst.num_jobs

/-- The numeric tables owned by a feature observer: one table (rows indexed by
entity id) and one dimension record per tracked feature type, none for the
others. -/
structure FeatureObserverState where
  features : FeatureType → Option (Nat → Int)
  feature_dimensions : FeatureType → Option (Nat × Nat)

/-- FeatureObserver.__init__ from the sources: resolve the requested feature
types, then allocate one zero table of shape (number of entities,
feature_size) per requested type. -/
def featureObserverInit (supported : List FeatureType) (feature_size : Nat)
    (d : Dispatcher) (request : FeatureTypesRequest) :
    Except JobShopLibError FeatureObserverState :=
  match getFeatureTypesList supported request with
  | .error e => .error e
  | .ok fts =>
      .ok { features := fun ft => if ft ∈ fts then some (fun _ => 0) else none,
            feature_dimensions := fun ft =>
              if ft ∈ fts then some (numberOfEntities d ft, feature_size) else none }

/-- An observer's behaviour over its private state: a full recomputation from
the current engine state, and an optional update override.  A concrete
observer class that defines no update method leaves the override absent. -/
structure ObserverBehavior (σ : Type) where
  initialize_features : Dispatcher → σ → σ
  update_override : Option (Dispatcher → σ → ScheduledOperation → σ)

/-- FeatureObserver.update from the sources: dispatch to the override when the
concrete observer defines one, otherwise fully recompute via
initialize_features (the scheduled operation is ignored). -/
def observerUpdate {σ : Type} (b : ObserverBehavior σ) (d : Dispatcher) (o : σ)
    (sop : ScheduledOperation) : σ :=
  match b.update_override with
  | some f => f d o sop
  | none => b.initialize_features d o

/-- State of the EarliestStartTimeObserver: one numeric table per domain. -/
structure EarliestStartTimeObserver where
  features_operations : Nat → Int
  features_machines : Nat → Int
  features_jobs : Nat → Int

/-- The value written for an unscheduled operation by
EarliestStartTimeObserver._update_operation_features. -/
def estOperationValue (d : Dispatcher) (op : Operation) : Int :=
  (d.earliest_start_time op none : Int) - (d.current_time : Int)

/-- EarliestStartTimeObserver._update_operation_features from the sources: for
every unscheduled operation, write earliest_start_time minus current_time at
row operation_id of the operations table. -/
def estUpdateOperationFeatures (o : EarliestStartTimeObserver) (d : Dispatcher) :
    EarliestStartTimeObserver :=
  { o with features_operations :=
      (d.unscheduled.foldl
        (fun tb op' => fun i => if i = op'.operation_id then estOperationValue d op' else tb i)
        o.features_operations) }

/-- EarliestStartTimeObserver._update_machine_features from the sources:
enumerate machine_next_available_time and write entry minus current_time. -/
def estUpdateMachineFeatures (o : EarliestStartTimeObserver) (d : Dispatcher) :
    EarliestStartTimeObserver :=
  { o with features_machines := fun m =>
      if m < d.machine_next_available_time.length then
        (d.machineNext m : Int) - (d.current_time : Int)
      else o.features_machines m }

/-- EarliestStartTimeObserver._update_job_features from the sources: enumerate
job_next_available_time and write entry minus current_time. -/
def estUpdateJobFeatures (o : EarliestStartTimeObserver) (d : Dispatcher) :
    EarliestStartTimeObserver :=
  { o with features_jobs := fun j =>
      if j < d.job_next_available_time.length then
        (d.jobNext j : Int) - (d.current_time : Int)
      else o.features_jobs j }

/-- EarliestStartTimeObserver.initialize_features from the sources: update the
operation, machine and job tables in that order. -/
def estInitializeFeatures (o : EarliestStartTimeObserver) (d : Dispatcher) :
    EarliestStartTimeObserver :=
  estUpdateJobFeatures (estUpdateMachineFeatures (estUpdateOperationFeatures o d) d) d

/-- The EarliestStartTimeObserver class defines initialize_features and no
update method, so its update is the base-class default. -/
def estBehavior : ObserverBehavior EarliestStartTimeObserver :=
  { initialize_features := fun d o => estInitializeFeatures o d,
    update_override := none }

/-- The update the EarliestStartTimeObserver runs after each commit: the
base-class default, i.e. a full recomputation. -/
def estUpdate (o : EarliestStartTimeObserver) (d : Dispatcher) (sop : ScheduledOperation) :
    EarliestStartTimeObserver :=
  observerUpdate estBehavior d o sop

/-- State of a RemainingOperationsObserver: the per-machine and per-job
remaining-operation counters are its feature tables. -/
structure RemainingOperationsObserver where
  feature_types : List FeatureType
  features_machines : Nat → Int
  features_jobs : Nat → Int

/-- Modelled from the spec: the RemainingOperationsObserver class (referenced
but not among the provided source files) initializes each tracked counter by a
full scan of the unscheduled operations: per machine the number of unscheduled
operations eligible on it, per job the number of unscheduled operations of
that job. -/
def remObsInit (fts : List FeatureType) (d : Dispatcher) : RemainingOperationsObserver :=
  { feature_types := fts,
    features_machines := fun m =>
      if FeatureType.MACHINES ∈ fts then d.remainingMachineScan m else 0,
    features_jobs := fun j =>
      if FeatureType.JOBS ∈ fts then d.remainingJobScan j else 0 }

/-- Modelled from the spec: on each commit the RemainingOperationsObserver
decrements the tracked counters: each eligible machine of the committed
operation, and the operation's job. -/
def remObsUpdate (r : RemainingOperationsObserver) (sop : ScheduledOperation) :
    RemainingOperationsObserver :=
  { r with
    features_machines := fun m =>
      if FeatureType.MACHINES ∈ r.feature_types ∧ m ∈ sop.operation.machines then
        r.features_machines m - 1
      else r.features_machines m,
    features_jobs := fun j =>
      if FeatureType.JOBS ∈ r.feature_types ∧ j = sop.operation.job_id then
        r.features_jobs j - 1
      else r.features_jobs j }

/-- State of the IsCompletedObserver: the tracked feature types, the
per-machine and per-job remaining-operation counters, and the three binary
feature tables. -/
structure IsCompletedObserver where
  feature_types : List FeatureType
  remaining_ops_per_machine : Nat → Int
  remaining_ops_per_job : Nat → Int
  features_operations : Nat → Int
  features_machines : Nat → Int
  features_jobs : Nat → Int

/-- IsCompletedObserver._get_remaining_operations_observer from the sources:
scan the dispatcher's subscribers (here the subsequence of them that are
RemainingOperationsObserver instances; others are skipped) for the first one
whose features cover every given feature type. -/
def getRemainingOperationsObserver (subscribers : List RemainingOperationsObserver)
    (fts : List FeatureType) : Option RemainingOperationsObserver :=
  subscribers.find? (fun r => fts.all (fun ft => decide (ft ∈ r.feature_types)))

/-- IsCompletedObserver.initialize_features from the sources: if a
remaining-operations observer covering the tracked feature types is
subscribed, copy its tables into the counters; otherwise zero the counters and
count the unscheduled operations directly (the per-index result of that
incrementing loop is the number of unscheduled operations hitting the index,
written here as a count). -/
def icoInitializeFeatures (o : IsCompletedObserver) (d : Dispatcher)
    (subscribers : List RemainingOperationsObserver) : IsCompletedObserver :=
  match getRemainingOperationsObserver subscribers o.feature_types with
  | some r =>
      { o with
        remaining_ops_per_job :=
          if FeatureType.JOBS ∈ o.feature_types then r.features_jobs
          else o.remaining_ops_per_job,
        remaining_ops_per_machine :=
          if FeatureType.MACHINES ∈ o.feature_types then r.features_machines
          else o.remaining_ops_per_machine }
  | none =>
      { o with
        remaining_ops_per_machine := fun m =>
          if FeatureType.MACHINES ∈ o.feature_types then d.remainingMachineScan m else 0,
        remaining_ops_per_job := fun j =>
          if FeatureType.JOBS ∈ o.feature_types then d.remainingJobScan j else 0 }

/-- IsCompletedObserver.update from the sources.  When operations are tracked,
rows of completed operations are set to 1.  When machines are tracked, the
counters of ALL eligible machines of the committed operation are decremented
and the machine feature rows of exactly those machines are set to 1 when the
new counter is zero, 0 otherwise.  When jobs are tracked, the committed
operation's job counter is decremented and its feature row set likewise. -/
def icoUpdate (o : IsCompletedObserver) (d : Dispatcher) (sop : ScheduledOperation) :
    IsCompletedObserver :=
  let o1 :=
    if FeatureType.OPERATIONS ∈ o.feature_types then
      { o with features_operations := fun i =>
          if i ∈ (d.completed_operations.map Operation.operation_id) then 1
          else o.features_operations i }
    else o
  let o2 :=
    if FeatureType.MACHINES ∈ o1.feature_types then
      { o1 with
        remaining_ops_per_machine := fun m =>
          if m ∈ sop.operation.machines then o1.remaining_ops_per_machine m - 1
          else o1.remaining_ops_per_machine m,
        features_machines := fun m =>
          if m ∈ sop.operation.machines then
            (if o1.remaining_ops_per_machine m - 1 = 0 then 1 else 0)
          else o1.features_machines m }
    else o1
  if FeatureType.JOBS ∈ o2.feature_types then
    { o2 with
      remaining_ops_per_job := fun j =>
        if j = sop.job_id then o2.remaining_ops_per_job j - 1
        else o2.remaining_ops_per_job j,
      features_jobs := fun j =>
        if j = sop.job_id then
          (if o2.remaining_ops_per_job j - 1 = 0 then 1 else 0)
        else o2.features_jobs j }
  else o2

/-- IsCompletedObserver.__init__ from the sources: zero counters and zero
feature tables, then initialize_features (run by the base-class constructor
after allocating the tables). -/
def icoNew (d : Dispatcher) (fts : List FeatureType)
    (subscribers : List RemainingOperationsObserver) : IsCompletedObserver :=
  icoInitializeFeatures
    { feature_types := fts,
      remaining_ops_per_machine := fun _ => 0,
      remaining_ops_per_job := fun _ => 0,
      features_operations := fun _ => 0,
      features_machines := fun _ => 0,
      features_jobs := fun _ => 0 } d subscribers

/-- Modelled from the spec: the engine together with its subscribed observers;
a successful commit updates the engine state first and then notifies every
subscribed observer in subscription order, while a failed commit changes
nothing at all. -/
structure DispatcherWithObservers where
  d : Dispatcher
  ico_subscribers : List IsCompletedObserver
  rem_subscribers : List RemainingOperationsObserver

/-- Modelled from the spec: the total transition of one commit attempt: on a
validation failure the engine state, both indices, the unscheduled set and
every observer state are left exactly as they were. -/
def DispatcherWithObservers.commitStep (e : DispatcherWithObservers)
    (op : Operation) (m : Nat) (t : Nat) : DispatcherWithObservers :=
  match e.d.commit op m t with
  | .ok d' =>
      { d := d',
        ico_subscribers := e.ico_subscribers.map
          (fun o => icoUpdate o d' (ScheduledOperation.mk op m t)),
        rem_subscribers := e.rem_subscribers.map
          (fun r => remObsUpdate r (ScheduledOperation.mk op m t)) }
  | .error _ => e

/-- Run a list of commit requests against the engine coupled with one
IsCompletedObserver, notifying it after each successful commit; none if any
commit is rejected. -/
def runICO : Dispatcher → IsCompletedObserver → List (Operation × Nat × Nat) →
    Option (Dispatcher × IsCompletedObserver)
  | d, o, [] => some (d, o)
  | d, o, (op', m, t) :: rest =>
    match d.commit op' m t with
    | .ok d' => runICO d' (icoUpdate o d' (ScheduledOperation.mk op' m t)) rest
    | .error _ => none

/-- Run a list of commit requests against the engine coupled with one
RemainingOperationsObserver. -/
def runRemObs : Dispatcher → RemainingOperationsObserver → List (Operation × Nat × Nat) →
    Option (Dispatcher × RemainingOperationsObserver)
  | d, r, [] => some (d, r)
  | d, r, (op', m, t) :: rest =>
    match d.commit op' m t with
    | .ok d' => runRemObs d' (remObsUpdate r (ScheduledOperation.mk op' m t)) rest
    | .error _ => none

/-- Immutable part of a job-shop graph: the node-id lookup maps for operation,
machine and job nodes, and whether the graph was built with machine and job
nodes at all (nodes_by_type of the sources, which removal never changes: per
the design notes, nodes live in an arena with stable integer ids). -/
structure GraphStatics where
  operation_node : Nat → Nat
  machine_node : Nat → Nat
  job_node : Nat → Nat
  has_machine_nodes : Bool
  has_job_nodes : Bool

/-- A job-shop graph: immutable node arena plus the removed bitset; removal
marks the bit and never reindexes. -/
structure JobShopGraph where
  statics : GraphStatics
  removed : Nat → Bool

def JobShopGraph.is_removed (g : JobShopGraph) (n : Nat) : Bool := g.removed n

def JobShopGraph.remove_node (g : JobShopGraph) (n : Nat) : JobShopGraph :=
  { g with removed := fun i => if i = n then true else g.removed i }

/-- Remove a node and append it to the log of remove_node invocations. -/
def removeNodeLogged (gl : JobShopGraph × List Nat) (n : Nat) : JobShopGraph × List Nat :=
  (gl.1.remove_node n, gl.2 ++ [n])

/-- The removal loop shared by every phase of ResidualGraphUpdater.update:
walk the items and remove the node of each item whose completion condition
holds, after checking via is_removed that the node is not already removed. -/
def guardedNodeRemovalFold {α : Type} (cond : α → Bool) (node : α → Nat)
    (items : List α) (gl : JobShopGraph × List Nat) : JobShopGraph × List Nat :=
  items.foldl
    (fun acc x => if cond x && !(acc.1.is_removed (node x)) then removeNodeLogged acc (node x) else acc)
    gl

/-- ResidualGraphUpdater.update from the sources: first remove the nodes of
all completed operations (remove_completed_operations, modelled from the spec
with the same is_removed guard), then, when configured and when the graph has
machine nodes, remove the node of every machine whose is-completed feature is
1 and likewise for jobs.  The returned list logs every remove_node
invocation. -/
def residualPhaseOperations (d : Dispatcher) (g : JobShopGraph)
    (gl : JobShopGraph × List Nat) : JobShopGraph × List Nat :=
  guardedNodeRemovalFold (fun _ => true) g.statics.operation_node
    (d.completed_operations.map Operation.operation_id) gl

def residualPhaseMachines (d : Dispatcher) (obs : IsCompletedObserver) (rm : Bool)
    (g : JobShopGraph) (gl : JobShopGraph × List Nat) : JobShopGraph × List Nat :=
  if rm && g.statics.has_machine_nodes then
    guardedNodeRemovalFold (fun m => obs.features_machines m == 1) g.statics.machine_node
      (List.range d.inst.num_machines) gl
  else gl

def residualPhaseJobs (d : Dispatcher) (obs : IsCompletedObserver) (rj : Bool)
    (g : JobShopGraph) (gl : JobShopGraph × List Nat) : JobShopGraph × List Nat :=
  if rj && g.statics.has_job_nodes then
    guardedNodeRemovalFold (fun j => obs.features_jobs j == 1) g.statics.job_node
      (List.range d.inst.num_jobs) gl
  else gl

def residualUpdate (d : Dispatcher) (obs : IsCompletedObserver) (rm rj : Bool)
    (g : JobShopGraph) : JobShopGraph × List Nat :=
  residualPhaseJobs d obs rj g
    (residualPhaseMachines d obs rm g
      (residualPhaseOperations d g (g, [])))

/-- The feature types the ResidualGraphUpdater configures on its completion
observer: MACHINES when machine-node removal is on, JOBS when job-node removal
is on. -/
def residualFeatureTypes (rm rj : Bool) : List FeatureType :=
  (if rm then [FeatureType.MACHINES] else []) ++ (if rj then [FeatureType.JOBS] else [])

/-- has_all_features from ResidualGraphUpdater of the sources: the candidate
observer (already known to be an IsCompletedObserver) covers every configured
feature type. -/
def hasAllFeatures (fts : List FeatureType) (o : IsCompletedObserver) : Bool :=
  fts.all (fun ft => decide (ft ∈ o.feature_types))

/-- Modelled from the spec: create_or_get_observer locates an
already-subscribed observer of the concrete type satisfying the condition and
returns it, creating (and initializing) a new one with the given feature types
if none exists. -/
def create_or_get_observer (d : Dispatcher) (ico_subscribers : List IsCompletedObserver)
    (rem_subscribers : List RemainingOperationsObserver)
    (condition : IsCompletedObserver → Bool) (fts : List FeatureType) : IsCompletedObserver :=
  match ico_subscribers.find? condition with
  | some o => o
  | none => icoNew d fts rem_subscribers

/-- The ResidualGraphUpdater's configuration and completion-observer slot. -/
structure ResidualGraphUpdater where
  remove_completed_machine_nodes : Bool
  remove_completed_job_nodes : Bool
  is_completed_observer_opt : Option IsCompletedObserver

/-- ResidualGraphUpdater.__init__ together with
_initialize_is_completed_observer_attribute from the sources: when at least
one removal mode is configured, obtain an IsCompletedObserver covering the
configured feature types via create_or_get_observer; otherwise leave the slot
unset. -/
def mkResidualGraphUpdater (d : Dispatcher) (ico_subscribers : List IsCompletedObserver)
    (rem_subscribers : List RemainingOperationsObserver) (rm rj : Bool) : ResidualGraphUpdater :=
  let fts := residualFeatureTypes rm rj
  { remove_completed_machine_nodes := rm,
    remove_completed_job_nodes := rj,
    is_completed_observer_opt :=
      if fts.isEmpty then none
      else some (create_or_get_observer d ico_subscribers rem_subscribers (hasAllFeatures fts) fts) }

/-- ResidualGraphUpdater.is_completed_observer from the sources: the accessor
raises UninitializedAttributeError when the slot was never initialized,
i.e. when neither removal mode was configured. -/
def ResidualGraphUpdater.is_completed_observer (u : ResidualGraphUpdater) :
    Except JobShopLibError IsCompletedObserver :=
  match u.is_completed_observer_opt with
  | none => .error (.UninitializedAttributeError ("is_completed_observer not initialized"))
  | some o => .ok o

/-- True exactly on results that are an UninitializedAttributeError. -/
def isUninitializedError {α : Type} : Except JobShopLibError α → Bool
  | .error (.UninitializedAttributeError _) => true
  | _ => false

/-- True exactly on ok results. -/
def isOkResult {α : Type} : Except JobShopLibError α → Bool
  | .ok _ => true
  | _ => false

/-- A one-operation example: job 0 consists of one operation on machine 0 with
duration 3. -/
def op00 : Operation :=
  { operation_id := 0, job_id := 0, machines := [0], duration := 3 }

/-- A one-job, one-machine example instance. -/
def inst0 : JobShopInstance := { jobs := [[op00]] }

/-- The freshly constructed engine on the example instance. -/
def d0 : Dispatcher := Dispatcher.initial inst0

/-- An example instance whose second job has no operations. -/
def instEmptyJob : JobShopInstance := { jobs := [[op00], []] }

/-- An example operation eligible on machines 0 and 1. -/
def opA : Operation :=
  { operation_id := 0, job_id := 0, machines := [0, 1], duration := 5 }

/-- An example engine state with distinct availability times: machine 0 free
at 3, machine 1 free at 1, job 0 free at 2. -/
def dA : Dispatcher :=
  { inst := { jobs := [[opA]] },
    machine_next_available_time := [3, 1],
    job_next_available_time := [2],
    unscheduled := [opA],
    schedule := [] }

/-- Counter/feature invariant the IsCompletedObserver maintains for machines:
the counter equals the full scan, and the feature is 1 exactly when the
counter has been decremented to zero, which requires the machine to be
eligible for at least one instance operation. -/
def IcoMachineInv (inst : JobShopInstance) (d : Dispatcher) (o : IsCompletedObserver) : Prop :=
  ∀ m, o.remaining_ops_per_machine m = d.remainingMachineScan m
    ∧ (o.features_machines m = 1 ↔
        (d.remainingMachineScan m = 0 ∧ ∃ opx ∈ inst.operations, m ∈ opx.machines))

/-- Counter/feature invariant the IsCompletedObserver maintains for jobs. -/
def IcoJobInv (inst : JobShopInstance) (d : Dispatcher) (o : IsCompletedObserver) : Prop :=
  ∀ j, o.remaining_ops_per_job j = d.remainingJobScan j
    ∧ (o.features_jobs j = 1 ↔
        (d.remainingJobScan j = 0 ∧ ∃ opx ∈ inst.operations, opx.job_id = j))

/-- Combined IsCompletedObserver invariant over a run. -/
def IcoInv (inst : JobShopInstance) (fts : List FeatureType) (d : Dispatcher)
    (o : IsCompletedObserver) : Prop :=
  o.feature_types = fts
    ∧ d.unscheduled ⊆ inst.operations
    ∧ (FeatureType.MACHINES ∈ fts → IcoMachineInv inst d o)
    ∧ (FeatureType.JOBS ∈ fts → IcoJobInv inst d o)

/-- Invariant of the RemainingOperationsObserver: each tracked table equals
the corresponding full scan. -/
def RemObsInv (d : Dispatcher) (r : RemainingOperationsObserver) : Prop :=
  (FeatureType.MACHINES ∈ r.feature_types →
      ∀ m, r.features_machines m = d.remainingMachineScan m)
    ∧ (FeatureType.JOBS ∈ r.feature_types →
      ∀ j, r.features_jobs j = d.remainingJobScan j)

/-- Invariant of the removal log threaded through ResidualGraphUpdater.update:
the log never repeats a node, logs only nodes that were unremoved at the start
of the update, the statics are untouched and the removed bitset is exactly the
initial one plus the log. -/
def RemovalLogInv (gs : GraphStatics) (g0removed : Nat → Bool)
    (gl : JobShopGraph × List Nat) : Prop :=
  gl.2.Nodup
    ∧ (∀ n ∈ gl.2, g0removed n = false)
    ∧ gl.1.statics = gs
    ∧ (∀ i, gl.1.removed i = (decide (i ∈ gl.2) || g0removed i))

/-- Concrete engine-with-observers used by the C2 witness. -/
def eA : DispatcherWithObservers :=
  { d := dA,
    ico_subscribers := [icoNew dA [FeatureType.MACHINES] []],
    rem_subscribers := [remObsInit [FeatureType.MACHINES] dA] }

/-- The engine state after committing op00 on machine 0 at time 0 from the
fresh engine on instEmptyJob. -/
def dCE1 : Dispatcher :=
  { inst := instEmptyJob,
    machine_next_available_time := [3],
    job_next_available_time := [3, 0],
    unscheduled := [],
    schedule := [ScheduledOperation.mk op00 0 0] }

/-- The engine state after committing op00 on machine 0 at time 0 from the
fresh engine on inst0. -/
def d0after : Dispatcher :=
  { inst := inst0,
    machine_next_available_time := [3],
    job_next_available_time := [3],
    unscheduled := [],
    schedule := [ScheduledOperation.mk op00 0 0] }

/-- A zero-initialized EarliestStartTimeObserver state. -/
def oEst : EarliestStartTimeObserver :=
  { features_operations := fun _ => 0,
    features_machines := fun _ => 0,
    features_jobs := fun _ => 0 }

/-- An example graph with identity operation-node map, machine node ids
offset by 10, job node ids offset by 20, and nothing removed. -/
def gW : JobShopGraph :=
  { statics :=
      { operation_node := fun i => i,
        machine_node := fun m => 10 + m,
        job_node := fun j => 20 + j,
        has_machine_nodes := true,
        has_job_nodes := true },
    removed := fun _ => false }

/-- An example completion-observer state reporting machine 0 completed. -/
def obsW : IsCompletedObserver :=
  { feature_types := [FeatureType.MACHINES],
    remaining_ops_per_machine := fun _ => 0,
    remaining_ops_per_job := fun _ => 0,
    features_operations := fun _ => 0,
    features_machines := fun _ => 1,
    features_jobs := fun _ => 0 }

/-- The observer state built for the request None with supported types
[OPERATIONS] on the example engine. -/
def stX : FeatureObserverState :=
  { features := fun ft =>
      if ft ∈ [FeatureType.OPERATIONS] then some (fun _ => 0) else none,
    feature_dimensions := fun ft =>
      if ft ∈ [FeatureType.OPERATIONS] then some (numberOfEntities d0 ft, 1) else none }

theorem foldl_min_le_init (xs : List Nat) (a : Nat) : xs.foldl min a ≤ a := by
  induction xs generalizing a with
  | nil => exact Nat.le_refl a
  | cons y ys ih =>
      calc (y :: ys).foldl min a = ys.foldl min (min a y) := rfl
        _ ≤ min a y := ih (min a y)
        _ ≤ a := Nat.min_le_left a y

theorem foldl_min_le_mem (xs : List Nat) (a x : Nat) (hx : x ∈ xs) : xs.foldl min a ≤ x := by
  induction xs generalizing a with
  | nil => cases hx
  | cons y ys ih =>
      rcases List.mem_cons.mp hx with h | h
      · subst h
        calc (x :: ys).foldl min a = ys.foldl min (min a x) := rfl
          _ ≤ min a x := foldl_min_le_init ys (min a x)
          _ ≤ x := Nat.min_le_right a x
      · exact ih (min a y) h

theorem foldl_min_mem (xs : List Nat) (a : Nat) : xs.foldl min a ∈ a :: xs := by
  induction xs generalizing a with
  | nil => exact List.mem_singleton.mpr rfl
  | cons y ys ih =>
      have h := ih (min a y)
      rcases List.mem_cons.mp h with h' | h'
      · rcases min_choice a y with hm | hm
        · exact List.mem_cons.mpr (Or.inl (h'.trans hm))
        · exact List.mem_cons.mpr (Or.inr (List.mem_cons.mpr (Or.inl (h'.trans hm))))
      · exact List.mem_cons.mpr (Or.inr (List.mem_cons.mpr (Or.inr h')))

theorem minList_le {l : List Nat} {x : Nat} (hx : x ∈ l) : minList l ≤ x := by
  cases l with
  | nil => cases hx
  | cons y ys =>
      rcases List.mem_cons.mp hx with h | h
      · subst h; exact foldl_min_le_init ys x
      · exact foldl_min_le_mem ys y x h

theorem minList_mem {l : List Nat} (h : l ≠ []) : minList l ∈ l := by
  cases l with
  | nil => exact absurd rfl h
  | cons y ys => exact foldl_min_mem ys y

theorem countP_erase_mem {α : Type} [DecidableEq α] (p : α → Bool) {l : List α} {a : α}
    (h : a ∈ l) :
    l.countP p = (l.erase a).countP p + (if p a then 1 else 0) := by
  have hp := List.perm_cons_erase h
  rw [hp.countP_eq p, List.countP_cons]

theorem commit_isValidationError_iff (d : Dispatcher) (op : Operation) (m t : Nat) :
    isValidationError (d.commit op m t) = true ↔
      (m ∉ op.machines ∨ op ∉ d.unscheduled ∨ t < d.earliest_start_time op (some m)) := by
  unfold Dispatcher.commit
  split_ifs with h1 h2 h3 <;> simp_all [isValidationError]

theorem commit_ok_elim {d : Dispatcher} {op : Operation} {m t : Nat} {d' : Dispatcher}
    (h : d.commit op m t = .ok d') :
    m ∈ op.machines ∧ op ∈ d.unscheduled ∧ d.earliest_start_time op (some m) ≤ t
      ∧ d'.inst = d.inst
      ∧ d'.unscheduled = d.unscheduled.erase op
      ∧ d'.schedule = d.schedule ++ [ScheduledOperation.mk op m t]
      ∧ d'.machine_next_available_time = d.machine_next_available_time.set m (t + op.duration)
      ∧ d'.job_next_available_time = d.job_next_available_time.set op.job_id (t + op.duration) := by
  unfold Dispatcher.commit at h
  split_ifs at h with h1 h2 h3
  cases h
  exact ⟨h1, h2, Nat.not_lt.mp h3, rfl, rfl, rfl, rfl, rfl⟩

theorem commit_error_of_not_ok {d : Dispatcher} {op : Operation} {m t : Nat}
    (h : isValidationError (d.commit op m t) = true) :
    ∀ e : DispatcherWithObservers, e.d = d → e.commitStep op m t = e := by
  intro e he
  unfold DispatcherWithObservers.commitStep
  rw [he]
  cases hc : d.commit op m t with
  | ok d' => rw [hc] at h; simp [isValidationError] at h
  | error err => rfl

theorem scanMachine_commit {d : Dispatcher} {op : Operation} {m t : Nat} {d' : Dispatcher}
    (h : d.commit op m t = .ok d') (m' : Nat) :
    d'.remainingMachineScan m' =
      d.remainingMachineScan m' - (if m' ∈ op.machines then 1 else 0) := by
  obtain ⟨-, hmem, -, -, hunsch, -⟩ := commit_ok_elim h
  unfold Dispatcher.remainingMachineScan
  rw [hunsch]
  have hc := countP_erase_mem (fun opx => decide (m' ∈ opx.machines)) hmem
  by_cases hm : m' ∈ op.machines <;> simp [hm] at hc ⊢ <;> omega

theorem scanJob_commit {d : Dispatcher} {op : Operation} {m t : Nat} {d' : Dispatcher}
    (h : d.commit op m t = .ok d') (j : Nat) :
    d'.remainingJobScan j =
      d.remainingJobScan j - (if op.job_id = j then 1 else 0) := by
  obtain ⟨-, hmem, -, -, hunsch, -⟩ := commit_ok_elim h
  unfold Dispatcher.remainingJobScan
  rw [hunsch]
  have hc := countP_erase_mem (fun opx => decide (opx.job_id = j)) hmem
  by_cases hj : op.job_id = j <;> simp [hj] at hc ⊢ <;> omega

theorem unscheduled_subset_commit {d : Dispatcher} {op : Operation} {m t : Nat} {d' : Dispatcher}
    (h : d.commit op m t = .ok d') : d'.unscheduled ⊆ d.unscheduled := by
  obtain ⟨-, -, -, -, hunsch, -⟩ := commit_ok_elim h
  rw [hunsch]
  intro x hx
  exact List.mem_of_mem_erase hx

theorem icoUpdate_feature_types (o : IsCompletedObserver) (d : Dispatcher)
    (sop : ScheduledOperation) : (icoUpdate o d sop).feature_types = o.feature_types := by
  unfold icoUpdate
  by_cases h1 : FeatureType.OPERATIONS ∈ o.feature_types <;>
    by_cases h2 : FeatureType.MACHINES ∈ o.feature_types <;>
    by_cases h3 : FeatureType.JOBS ∈ o.feature_types <;>
    simp [h1, h2, h3]

theorem icoUpdate_remM (o : IsCompletedObserver) (d : Dispatcher) (sop : ScheduledOperation)
    (h : FeatureType.MACHINES ∈ o.feature_types) (m : Nat) :
    (icoUpdate o d sop).remaining_ops_per_machine m =
      (if m ∈ sop.operation.machines then o.remaining_ops_per_machine m - 1
       else o.remaining_ops_per_machine m) := by
  unfold icoUpdate
  by_cases h1 : FeatureType.OPERATIONS ∈ o.feature_types <;>
    by_cases h3 : FeatureType.JOBS ∈ o.feature_types <;>
    simp [h1, h, h3]

theorem icoUpdate_remM_not (o : IsCompletedObserver) (d : Dispatcher) (sop : ScheduledOperation)
    (h : FeatureType.MACHINES ∉ o.feature_types) (m : Nat) :
    (icoUpdate o d sop).remaining_ops_per_machine m = o.remaining_ops_per_machine m := by
  unfold icoUpdate
  by_cases h1 : FeatureType.OPERATIONS ∈ o.feature_types <;>
    by_cases h3 : FeatureType.JOBS ∈ o.feature_types <;>
    simp [h1, h, h3]

theorem icoUpdate_featM (o : IsCompletedObserver) (d : Dispatcher) (sop : ScheduledOperation)
    (h : FeatureType.MACHINES ∈ o.feature_types) (m : Nat) :
    (icoUpdate o d sop).features_machines m =
      (if m ∈ sop.operation.machines then
        (if o.remaining_ops_per_machine m - 1 = 0 then 1 else 0)
       else o.features_machines m) := by
  unfold icoUpdate
  by_cases h1 : FeatureType.OPERATIONS ∈ o.feature_types <;>
    by_cases h3 : FeatureType.JOBS ∈ o.feature_types <;>
    simp [h1, h, h3]

theorem icoUpdate_featM_not (o : IsCompletedObserver) (d : Dispatcher) (sop : ScheduledOperation)
    (h : FeatureType.MACHINES ∉ o.feature_types) (m : Nat) :
    (icoUpdate o d sop).features_machines m = o.features_machines m := by
  unfold icoUpdate
  by_cases h1 : FeatureType.OPERATIONS ∈ o.feature_types <;>
    by_cases h3 : FeatureType.JOBS ∈ o.feature_types <;>
    simp [h1, h, h3]

theorem icoUpdate_remJ (o : IsCompletedObserver) (d : Dispatcher) (sop : ScheduledOperation)
    (h : FeatureType.JOBS ∈ o.feature_types) (j : Nat) :
    (icoUpdate o d sop).remaining_ops_per_job j =
      (if j = sop.job_id then o.remaining_ops_per_job j - 1
       else o.remaining_ops_per_job j) := by
  unfold icoUpdate
  by_cases h1 : FeatureType.OPERATIONS ∈ o.feature_types <;>
    by_cases h2 : FeatureType.MACHINES ∈ o.feature_types <;>
    simp [h1, h2, h]

theorem icoUpdate_remJ_not (o : IsCompletedObserver) (d : Dispatcher) (sop : ScheduledOperation)
    (h : FeatureType.JOBS ∉ o.feature_types) (j : Nat) :
    (icoUpdate o d sop).remaining_ops_per_job j = o.remaining_ops_per_job j := by
  unfold icoUpdate
  by_cases h1 : FeatureType.OPERATIONS ∈ o.feature_types <;>
    by_cases h2 : FeatureType.MACHINES ∈ o.feature_types <;>
    simp [h1, h2, h]

theorem icoUpdate_featJ (o : IsCompletedObserver) (d : Dispatcher) (sop : ScheduledOperation)
    (h : FeatureType.JOBS ∈ o.feature_types) (j : Nat) :
    (icoUpdate o d sop).features_jobs j =
      (if j = sop.job_id then
        (if o.remaining_ops_per_job j - 1 = 0 then 1 else 0)
       else o.features_jobs j) := by
  unfold icoUpdate
  by_cases h1 : FeatureType.OPERATIONS ∈ o.feature_types <;>
    by_cases h2 : FeatureType.MACHINES ∈ o.feature_types <;>
    simp [h1, h2, h]

theorem icoUpdate_featJ_not (o : IsCompletedObserver) (d : Dispatcher) (sop : ScheduledOperation)
    (h : FeatureType.JOBS ∉ o.feature_types) (j : Nat) :
    (icoUpdate o d sop).features_jobs j = o.features_jobs j := by
  unfold icoUpdate
  by_cases h1 : FeatureType.OPERATIONS ∈ o.feature_types <;>
    by_cases h2 : FeatureType.MACHINES ∈ o.feature_types <;>
    simp [h1, h2, h]

theorem estFold_notmem (d : Dispatcher) (ops : List Operation) (tb : Nat → Int) (i : Nat)
    (h : i ∉ ops.map Operation.operation_id) :
    (ops.foldl
      (fun tb' op' => fun k => if k = op'.operation_id then estOperationValue d op' else tb' k)
      tb) i = tb i := by
  induction ops generalizing tb with
  | nil => rfl
  | cons a as ih =>
      simp only [List.map_cons, List.mem_cons, not_or] at h
      obtain ⟨hne, hnotin⟩ := h
      simp only [List.foldl_cons]
      rw [ih _ hnotin]
      simp [hne]

theorem estFold_mem (d : Dispatcher) (ops : List Operation) (tb : Nat → Int) (op : Operation)
    (hn : (ops.map Operation.operation_id).Nodup) (hop : op ∈ ops) :
    (ops.foldl
      (fun tb' op' => fun k => if k = op'.operation_id then estOperationValue d op' else tb' k)
      tb) op.operation_id = estOperationValue d op := by
  induction ops generalizing tb with
  | nil => cases hop
  | cons a as ih =>
      simp only [List.map_cons, List.nodup_cons] at hn
      obtain ⟨hna, hnas⟩ := hn
      rcases List.mem_cons.mp hop with h | h
      · subst h
        simp only [List.foldl_cons]
        rw [estFold_notmem d as _ _ hna]
        simp
      · exact ih _ hnas h

theorem remObs_inv_initial (fts : List FeatureType) (d : Dispatcher) :
    RemObsInv d (remObsInit fts d) := by
  constructor
  · intro hm m
    simp only [remObsInit] at hm
    simp [remObsInit, hm]
  · intro hj j
    simp only [remObsInit] at hj
    simp [remObsInit, hj]

theorem remObs_inv_step {d : Dispatcher} {op : Operation} {m t : Nat} {d' : Dispatcher}
    {r : RemainingOperationsObserver}
    (hc : d.commit op m t = .ok d') (hr : RemObsInv d r) :
    RemObsInv d' (remObsUpdate r (ScheduledOperation.mk op m t)) := by
  obtain ⟨hrm, hrj⟩ := hr
  constructor
  · intro hm m'
    simp only [remObsUpdate] at hm
    have hscan := scanMachine_commit hc m'
    simp only [remObsUpdate]
    by_cases hmm : m' ∈ op.machines <;> simp [hm, hmm, hscan, hrm hm m']
  · intro hj j
    simp only [remObsUpdate] at hj
    have hscan := scanJob_commit hc j
    simp only [remObsUpdate]
    by_cases hjj : j = op.job_id
    · subst hjj
      simp [hj, hscan, hrj hj]
    · have : ¬ op.job_id = j := fun hx => hjj hx.symm
      simp [hj, hjj, hscan, hrj hj j, this]

theorem runRemObs_inv (trace : List (Operation × Nat × Nat)) :
    ∀ (d : Dispatcher) (r : RemainingOperationsObserver) (d' : Dispatcher)
      (r' : RemainingOperationsObserver),
      RemObsInv d r → runRemObs d r trace = some (d', r') →
      RemObsInv d' r' ∧ r'.feature_types = r.feature_types := by
  induction trace with
  | nil =>
      intro d r d' r' hinv hrun
      cases hrun
      exact ⟨hinv, rfl⟩
  | cons c rest ih =>
      intro d r d' r' hinv hrun
      obtain ⟨op, m, t⟩ := c
      unfold runRemObs at hrun
      cases hc : d.commit op m t with
      | ok d1 =>
          rw [hc] at hrun
          have hstep := remObs_inv_step hc hinv
          have := ih d1 _ d' r' hstep hrun
          exact ⟨this.1, this.2⟩
      | error err => rw [hc] at hrun; cases hrun

theorem scanMachine_pos_of_exists {d : Dispatcher} {m : Nat}
    (h : ∃ opx ∈ d.unscheduled, m ∈ opx.machines) : 0 < d.remainingMachineScan m := by
  obtain ⟨opx, hmem, hmx⟩ := h
  unfold Dispatcher.remainingMachineScan
  have : 0 < d.unscheduled.countP (fun op' => decide (m ∈ op'.machines)) :=
    List.countP_pos_iff.mpr ⟨opx, hmem, by simpa using hmx⟩
  exact_mod_cast this

theorem scanJob_pos_of_exists {d : Dispatcher} {j : Nat}
    (h : ∃ opx ∈ d.unscheduled, opx.job_id = j) : 0 < d.remainingJobScan j := by
  obtain ⟨opx, hmem, hjx⟩ := h
  unfold Dispatcher.remainingJobScan
  have : 0 < d.unscheduled.countP (fun op' => decide (op'.job_id = j)) :=
    List.countP_pos_iff.mpr ⟨opx, hmem, by simpa using hjx⟩
  exact_mod_cast this

theorem ico_inv_initial (inst : JobShopInstance) (fts : List FeatureType) :
    IcoInv inst fts (Dispatcher.initial inst) (icoNew (Dispatcher.initial inst) fts []) := by
  refine ⟨?_, ?_, ?_, ?_⟩
  · simp [icoNew, icoInitializeFeatures, getRemainingOperationsObserver]
  · intro x hx
    simpa [Dispatcher.initial] using hx
  · intro hm m
    constructor
    · simp [icoNew, icoInitializeFeatures, getRemainingOperationsObserver, hm]
    · constructor
      · intro hfeat
        simp [icoNew, icoInitializeFeatures, getRemainingOperationsObserver] at hfeat
      · rintro ⟨hscan, opx, hopx, hmx⟩
        have hpos : 0 < (Dispatcher.initial inst).remainingMachineScan m :=
          scanMachine_pos_of_exists ⟨opx, by simpa [Dispatcher.initial] using hopx, hmx⟩
        omega
  · intro hj j
    constructor
    · simp [icoNew, icoInitializeFeatures, getRemainingOperationsObserver, hj]
    · constructor
      · intro hfeat
        simp [icoNew, icoInitializeFeatures, getRemainingOperationsObserver] at hfeat
      · rintro ⟨hscan, opx, hopx, hjx⟩
        have hpos : 0 < (Dispatcher.initial inst).remainingJobScan j :=
          scanJob_pos_of_exists ⟨opx, by simpa [Dispatcher.initial] using hopx, hjx⟩
        omega

theorem ico_inv_step {inst : JobShopInstance} {fts : List FeatureType} {d d' : Dispatcher}
    {o : IsCompletedObserver} {op : Operation} {m t : Nat}
    (hc : d.commit op m t = .ok d') (hinv : IcoInv inst fts d o) :
    IcoInv inst fts d' (icoUpdate o d' (ScheduledOperation.mk op m t)) := by
  obtain ⟨hft, hsub, hmach, hjob⟩ := hinv
  obtain ⟨-, hopmem, -, -, -, -⟩ := commit_ok_elim hc
  refine ⟨by rw [icoUpdate_feature_types, hft], ?_, ?_, ?_⟩
  · intro x hx
    exact hsub (unscheduled_subset_commit hc hx)
  · intro hm
    have hminv := hmach hm
    have hmo : FeatureType.MACHINES ∈ o.feature_types := by rw [hft]; exact hm
    intro m'
    have hscan := scanMachine_commit hc m'
    constructor
    · rw [icoUpdate_remM o d' _ hmo m']
      by_cases hmm : m' ∈ op.machines <;> simp [hmm, hscan, (hminv m').1]
    · rw [icoUpdate_featM o d' _ hmo m']
      by_cases hmm : m' ∈ op.machines
      · rw [if_pos (by simpa using hmm)]
        have hrem := (hminv m').1
        have hex : ∃ opx ∈ inst.operations, m' ∈ opx.machines := ⟨op, hsub hopmem, hmm⟩
        have hsc' : d'.remainingMachineScan m' = o.remaining_ops_per_machine m' - 1 := by
          rw [hscan, hrem]; simp [hmm]
        constructor
        · intro h1
          by_cases hz : o.remaining_ops_per_machine m' - 1 = 0
          · exact ⟨by rw [hsc']; exact hz, hex⟩
          · simp [hz] at h1
        · rintro ⟨hz, -⟩
          rw [hsc'] at hz
          simp [hz]
      · rw [if_neg (by simpa using hmm)]
        have heq : d'.remainingMachineScan m' = d.remainingMachineScan m' := by
          rw [hscan]; simp [hmm]
        rw [heq]
        exact (hminv m').2
  · intro hj
    have hjinv := hjob hj
    have hjo : FeatureType.JOBS ∈ o.feature_types := by rw [hft]; exact hj
    intro j
    have hscan := scanJob_commit hc j
    constructor
    · rw [icoUpdate_remJ o d' _ hjo j]
      by_cases hjj : j = op.job_id
      · subst hjj
        simp [ScheduledOperation.job_id, hscan, (hjinv op.job_id).1]
      · have hne : ¬ op.job_id = j := fun hx => hjj hx.symm
        simp [ScheduledOperation.job_id, hjj, hscan, (hjinv j).1, hne]
    · rw [icoUpdate_featJ o d' _ hjo j]
      by_cases hjj : j = op.job_id
      · subst hjj
        rw [if_pos (by simp [ScheduledOperation.job_id])]
        have hrem := (hjinv op.job_id).1
        have hex : ∃ opx ∈ inst.operations, opx.job_id = op.job_id := ⟨op, hsub hopmem, rfl⟩
        have hsc' : d'.remainingJobScan op.job_id = o.remaining_ops_per_job op.job_id - 1 := by
          rw [hscan, hrem]; simp
        constructor
        · intro h1
          by_cases hz : o.remaining_ops_per_job op.job_id - 1 = 0
          · exact ⟨by rw [hsc']; exact hz, hex⟩
          · simp [hz] at h1
        · rintro ⟨hz, -⟩
          rw [hsc'] at hz
          simp [hz]
      · rw [if_neg (by simpa [ScheduledOperation.job_id] using hjj)]
        have hne : ¬ op.job_id = j := fun hx => hjj hx.symm
        have heq : d'.remainingJobScan j = d.remainingJobScan j := by
          rw [hscan]; simp [hne]
        rw [heq]
        exact (hjinv j).2

theorem runICO_inv (inst : JobShopInstance) (fts : List FeatureType)
    (trace : List (Operation × Nat × Nat)) :
    ∀ (d : Dispatcher) (o : IsCompletedObserver) (d' : Dispatcher) (o' : IsCompletedObserver),
      IcoInv inst fts d o → runICO d o trace = some (d', o') → IcoInv inst fts d' o' := by
  induction trace with
  | nil =>
      intro d o d' o' hinv hrun
      cases hrun
      exact hinv
  | cons c rest ih =>
      intro d o d' o' hinv hrun
      obtain ⟨op, m, t⟩ := c
      unfold runICO at hrun
      cases hc : d.commit op m t with
      | ok d1 =>
          rw [hc] at hrun
          exact ih d1 _ d' o' (ico_inv_step hc hinv) hrun
      | error err => rw [hc] at hrun; cases hrun

theorem gnr_statics {α : Type} (cond : α → Bool) (node : α → Nat) (items : List α) :
    ∀ gl : JobShopGraph × List Nat,
      (guardedNodeRemovalFold cond node items gl).1.statics = gl.1.statics := by
  induction items with
  | nil => intro gl; rfl
  | cons a as ih =>
      intro gl
      unfold guardedNodeRemovalFold at ih ⊢
      simp only [List.foldl_cons]
      by_cases hg : cond a && !(gl.1.is_removed (node a))
      · rw [if_pos hg, ih]
        rfl
      · rw [if_neg hg, ih]

theorem gnr_mono {α : Type} (cond : α → Bool) (node : α → Nat) (items : List α) :
    ∀ (gl : JobShopGraph × List Nat) (i : Nat), gl.1.removed i = true →
      (guardedNodeRemovalFold cond node items gl).1.removed i = true := by
  induction items with
  | nil => intro gl i h; exact h
  | cons a as ih =>
      intro gl i h
      unfold guardedNodeRemovalFold at ih ⊢
      simp only [List.foldl_cons]
      by_cases hg : cond a && !(gl.1.is_removed (node a))
      · rw [if_pos hg]
        apply ih
        simp only [removeNodeLogged, JobShopGraph.remove_node]
        by_cases hi : i = node a <;> simp [hi, h]
      · rw [if_neg hg]
        exact ih gl i h

theorem gnr_loginv {α : Type} (gs : GraphStatics) (g0rem : Nat → Bool)
    (cond : α → Bool) (node : α → Nat) (items : List α) :
    ∀ gl : JobShopGraph × List Nat, RemovalLogInv gs g0rem gl →
      RemovalLogInv gs g0rem (guardedNodeRemovalFold cond node items gl) := by
  induction items with
  | nil => intro gl h; exact h
  | cons a as ih =>
      intro gl h
      obtain ⟨hnd, hfresh, hst, hrem⟩ := h
      unfold guardedNodeRemovalFold at ih ⊢
      simp only [List.foldl_cons]
      by_cases hg : cond a && !(gl.1.is_removed (node a))
      · rw [if_pos hg]
        apply ih
        have hg' := hg
        rw [Bool.and_eq_true] at hg'
        have hnr : gl.1.removed (node a) = false := by
          simpa [JobShopGraph.is_removed] using hg'.2
        have hna : node a ∉ gl.2 := by
          intro hmem
          rw [hrem (node a)] at hnr
          simp [hmem] at hnr
        have hng : g0rem (node a) = false := by
          rw [hrem (node a)] at hnr
          simpa [hna] using hnr
        refine ⟨?_, ?_, hst, ?_⟩
        · have hperm := List.perm_append_singleton (node a) gl.2
          exact hperm.nodup_iff.mpr (List.nodup_cons.mpr ⟨hna, hnd⟩)
        · intro n hn
          rcases List.mem_append.mp hn with h' | h'
          · exact hfresh n h'
          · rw [List.mem_singleton.mp h']
            exact hng
        · intro i
          simp only [removeNodeLogged, JobShopGraph.remove_node]
          by_cases hi : i = node a
          · subst hi
            simp
          · simp only [if_neg hi]
            rw [hrem i]
            have : (i ∈ gl.2 ++ [node a]) ↔ (i ∈ gl.2) := by
              simp [List.mem_append, hi]
            simp [this]
      · rw [if_neg hg]
        exact ih gl ⟨hnd, hfresh, hst, hrem⟩

theorem gnr_post {α : Type} (cond : α → Bool) (node : α → Nat) (items : List α) :
    ∀ (gl : JobShopGraph × List Nat) (x : α), x ∈ items → cond x = true →
      (guardedNodeRemovalFold cond node items gl).1.removed (node x) = true := by
  induction items with
  | nil => intro gl x hx; cases hx
  | cons a as ih =>
      intro gl x hx hc
      unfold guardedNodeRemovalFold at ih ⊢
      simp only [List.foldl_cons]
      rcases List.mem_cons.mp hx with h | h
      · subst h
        by_cases hg : cond x && !(gl.1.is_removed (node x))
        · rw [if_pos hg]
          apply gnr_mono
          simp [removeNodeLogged, JobShopGraph.remove_node]
        · rw [if_neg hg]
          apply gnr_mono
          have : gl.1.is_removed (node x) = true := by
            cases hr : gl.1.is_removed (node x)
            · exact absurd (by simp [hc, hr]) hg
            · rfl
          simpa [JobShopGraph.is_removed] using this
      · by_cases hg : cond a && !(gl.1.is_removed (node a))
        · rw [if_pos hg]
          exact ih _ x h hc
        · rw [if_neg hg]
          exact ih gl x h hc

theorem gnr_id {α : Type} (cond : α → Bool) (node : α → Nat) (items : List α) :
    ∀ gl : JobShopGraph × List Nat,
      (∀ x ∈ items, cond x = true → gl.1.removed (node x) = true) →
      guardedNodeRemovalFold cond node items gl = gl := by
  induction items with
  | nil => intro gl h; rfl
  | cons a as ih =>
      intro gl h
      unfold guardedNodeRemovalFold at ih ⊢
      simp only [List.foldl_cons]
      have hg : (cond a && !(gl.1.is_removed (node a))) = false := by
        by_cases hca : cond a = true
        · have := h a (List.mem_cons_self a as) hca
          simp [JobShopGraph.is_removed, hca, this]
        · simp [Bool.eq_false_iff.mpr hca]
      rw [hg]
      simp only [Bool.false_eq_true, if_false]
      exact ih gl (fun x hx hc => h x (List.mem_cons_of_mem a hx) hc)

theorem phaseOps_statics (d : Dispatcher) (g : JobShopGraph) (gl : JobShopGraph × List Nat) :
    (residualPhaseOperations d g gl).1.statics = gl.1.statics :=
  gnr_statics _ _ _ gl

theorem phaseM_statics (d : Dispatcher) (obs : IsCompletedObserver) (rm : Bool)
    (g : JobShopGraph) (gl : JobShopGraph × List Nat) :
    (residualPhaseMachines d obs rm g gl).1.statics = gl.1.statics := by
  unfold residualPhaseMachines
  split_ifs
  · exact gnr_statics _ _ _ gl
  · rfl

theorem phaseJ_statics (d : Dispatcher) (obs : IsCompletedObserver) (rj : Bool)
    (g : JobShopGraph) (gl : JobShopGraph × List Nat) :
    (residualPhaseJobs d obs rj g gl).1.statics = gl.1.statics := by
  unfold residualPhaseJobs
  split_ifs
  · exact gnr_statics _ _ _ gl
  · rfl

theorem phaseOps_mono (d : Dispatcher) (g : JobShopGraph) (gl : JobShopGraph × List Nat)
    (i : Nat) (h : gl.1.removed i = true) :
    (residualPhaseOperations d g gl).1.removed i = true :=
  gnr_mono _ _ _ gl i h

theorem phaseM_mono (d : Dispatcher) (obs : IsCompletedObserver) (rm : Bool)
    (g : JobShopGraph) (gl : JobShopGraph × List Nat) (i : Nat) (h : gl.1.removed i = true) :
    (residualPhaseMachines d obs rm g gl).1.removed i = true := by
  unfold residualPhaseMachines
  split_ifs
  · exact gnr_mono _ _ _ gl i h
  · exact h

theorem phaseJ_mono (d : Dispatcher) (obs : IsCompletedObserver) (rj : Bool)
    (g : JobShopGraph) (gl : JobShopGraph × List Nat) (i : Nat) (h : gl.1.removed i = true) :
    (residualPhaseJobs d obs rj g gl).1.removed i = true := by
  unfold residualPhaseJobs
  split_ifs
  · exact gnr_mono _ _ _ gl i h
  · exact h

theorem phaseOps_loginv (gs : GraphStatics) (g0rem : Nat → Bool) (d : Dispatcher)
    (g : JobShopGraph) (gl : JobShopGraph × List Nat) (h : RemovalLogInv gs g0rem gl) :
    RemovalLogInv gs g0rem (residualPhaseOperations d g gl) :=
  gnr_loginv gs g0rem _ _ _ gl h

theorem phaseM_loginv (gs : GraphStatics) (g0rem : Nat → Bool) (d : Dispatcher)
    (obs : IsCompletedObserver) (rm : Bool) (g : JobShopGraph)
    (gl : JobShopGraph × List Nat) (h : RemovalLogInv gs g0rem gl) :
    RemovalLogInv gs g0rem (residualPhaseMachines d obs rm g gl) := by
  unfold residualPhaseMachines
  split_ifs
  · exact gnr_loginv gs g0rem _ _ _ gl h
  · exact h

theorem phaseJ_loginv (gs : GraphStatics) (g0rem : Nat → Bool) (d : Dispatcher)
    (obs : IsCompletedObserver) (rj : Bool) (g : JobShopGraph)
    (gl : JobShopGraph × List Nat) (h : RemovalLogInv gs g0rem gl) :
    RemovalLogInv gs g0rem (residualPhaseJobs d obs rj g gl) := by
  unfold residualPhaseJobs
  split_ifs
  · exact gnr_loginv gs g0rem _ _ _ gl h
  · exact h

theorem residualUpdate_statics (d : Dispatcher) (obs : IsCompletedObserver) (rm rj : Bool)
    (g : JobShopGraph) : (residualUpdate d obs rm rj g).1.statics = g.statics := by
  unfold residualUpdate
  rw [phaseJ_statics, phaseM_statics, phaseOps_statics]

theorem residualUpdate_loginv (d : Dispatcher) (obs : IsCompletedObserver) (rm rj : Bool)
    (g : JobShopGraph) :
    RemovalLogInv g.statics g.removed (residualUpdate d obs rm rj g) := by
  unfold residualUpdate
  apply phaseJ_loginv
  apply phaseM_loginv
  apply phaseOps_loginv
  unfold RemovalLogInv
  refine ⟨List.nodup_nil, ?_, rfl, ?_⟩
  · intro n hn
    cases hn
  · intro i
    simp

theorem residualUpdate_removed_op (d : Dispatcher) (obs : IsCompletedObserver) (rm rj : Bool)
    (g : JobShopGraph) (opId : Nat)
    (h : opId ∈ d.completed_operations.map Operation.operation_id) :
    (residualUpdate d obs rm rj g).1.removed (g.statics.operation_node opId) = true := by
  unfold residualUpdate
  apply phaseJ_mono
  apply phaseM_mono
  exact gnr_post _ _ _ (g, []) opId h rfl

theorem residualUpdate_removed_machine (d : Dispatcher) (obs : IsCompletedObserver)
    (rm rj : Bool) (g : JobShopGraph) (m : Nat)
    (hrm : (rm && g.statics.has_machine_nodes) = true) (hm : m ∈ List.range d.inst.num_machines)
    (hfeat : (obs.features_machines m == 1) = true) :
    (residualUpdate d obs rm rj g).1.removed (g.statics.machine_node m) = true := by
  unfold residualUpdate
  apply phaseJ_mono
  unfold residualPhaseMachines
  rw [if_pos hrm]
  exact gnr_post _ _ _ _ m hm hfeat

theorem residualUpdate_removed_job (d : Dispatcher) (obs : IsCompletedObserver)
    (rm rj : Bool) (g : JobShopGraph) (j : Nat)
    (hrj : (rj && g.statics.has_job_nodes) = true) (hj : j ∈ List.range d.inst.num_jobs)
    (hfeat : (obs.features_jobs j == 1) = true) :
    (residualUpdate d obs rm rj g).1.removed (g.statics.job_node j) = true := by
  unfold residualUpdate
  unfold residualPhaseJobs
  rw [if_pos hrj]
  exact gnr_post _ _ _ _ j hj hfeat

theorem residualUpdate_idem (d : Dispatcher) (obs : IsCompletedObserver) (rm rj : Bool)
    (g : JobShopGraph) :
    residualUpdate d obs rm rj (residualUpdate d obs rm rj g).1 =
      ((residualUpdate d obs rm rj g).1, []) := by
  set g' := (residualUpdate d obs rm rj g).1 with hg'
  have hst : g'.statics = g.statics := residualUpdate_statics d obs rm rj g
  have h1 : residualPhaseOperations d g' (g', []) = (g', []) := by
    unfold residualPhaseOperations
    apply gnr_id
    intro x hx _
    rw [hst, hg']
    exact residualUpdate_removed_op d obs rm rj g x hx
  have h2 : residualPhaseMachines d obs rm g' (g', []) = (g', []) := by
    unfold residualPhaseMachines
    rw [hst]
    by_cases hc : (rm && g.statics.has_machine_nodes) = true
    · rw [if_pos hc]
      apply gnr_id
      intro m hm hfeat
      rw [hg']
      exact residualUpdate_removed_machine d obs rm rj g m hc hm hfeat
    · rw [if_neg hc]
  have h3 : residualPhaseJobs d obs rj g' (g', []) = (g', []) := by
    unfold residualPhaseJobs
    rw [hst]
    by_cases hc : (rj && g.statics.has_job_nodes) = true
    · rw [if_pos hc]
      apply gnr_id
      intro j hj hfeat
      rw [hg']
      exact residualUpdate_removed_job d obs rm rj g j hc hj hfeat
    · rw [if_neg hc]
  show residualUpdate d obs rm rj g' = (g', [])
  unfold residualUpdate
  rw [h1, h2, h3]

/-- C1: with a machine pre-selected, earliest_start_time(operation, machine)
is the max of the job's next-available time and that machine's entry; with no
machine pre-selected it is attained at some eligible machine and is a lower
bound over all eligible machines (i.e. it equals max(job entry, min over
eligible machines of the machine entry)); and any commit whose start time is
strictly below either value fails with a ValidationError. -/
theorem c1_earliest_start_time_floor (d : Dispatcher) (op : Operation) (m t : Nat)
    (hm : m ∈ op.machines) :
    d.earliest_start_time op (some m) = max (d.jobNext op.job_id) (d.machineNext m)
    ∧ (∃ mbest ∈ op.machines,
        d.earliest_start_time op none = d.earliest_start_time op (some mbest))
    ∧ (∀ mx ∈ op.machines,
        d.earliest_start_time op none ≤ d.earliest_start_time op (some mx))
    ∧ (t < d.earliest_start_time op (some m) → isValidationError (d.commit op m t) = true)
    ∧ (t < d.earliest_start_time op none → isValidationError (d.commit op m t) = true) := by
  have hboundall : ∀ mx ∈ op.machines,
      d.earliest_start_time op none ≤ d.earliest_start_time op (some mx) := by
    intro mx hmx
    unfold Dispatcher.earliest_start_time
    have hle : minList (op.machines.map d.machineNext) ≤ d.machineNext mx :=
      minList_le (List.mem_map.mpr ⟨mx, hmx, rfl⟩)
    exact max_le_max (le_refl _) hle
  have hval : t < d.earliest_start_time op (some m) →
      isValidationError (d.commit op m t) = true := by
    intro hlt
    exact (commit_isValidationError_iff d op m t).mpr (Or.inr (Or.inr hlt))
  refine ⟨rfl, ?_, hboundall, hval, ?_⟩
  · have hne : op.machines.map d.machineNext ≠ [] := by
      intro hcon
      rw [List.map_eq_nil_iff] at hcon
      rw [hcon] at hm
      cases hm
    obtain ⟨mbest, hmb, heq⟩ := List.mem_map.mp (minList_mem hne)
    refine ⟨mbest, hmb, ?_⟩
    simp only [Dispatcher.earliest_start_time]
    rw [← heq]
  · intro hlt
    exact hval (Nat.lt_of_lt_of_le hlt (hboundall m hm))

theorem c1_witness :
    (dA.earliest_start_time opA (some 0) = max (dA.jobNext opA.job_id) (dA.machineNext 0)
      ∧ (∃ mbest ∈ opA.machines,
          dA.earliest_start_time opA none = dA.earliest_start_time opA (some mbest))
      ∧ (∀ mx ∈ opA.machines,
          dA.earliest_start_time opA none ≤ dA.earliest_start_time opA (some mx))
      ∧ (1 < dA.earliest_start_time opA (some 0) →
          isValidationError (dA.commit opA 0 1) = true)
      ∧ (1 < dA.earliest_start_time opA none →
          isValidationError (dA.commit opA 0 1) = true))
    ∧ isValidationError (dA.commit opA 0 1) = true :=
  ⟨c1_earliest_start_time_floor dA opA 0 1 (by decide),
   (c1_earliest_start_time_floor dA opA 0 1 (by decide)).2.2.2.2 (by decide)⟩

/-- C2: a commit fails with a ValidationError exactly when the machine is not
eligible, the operation is already scheduled (no longer unscheduled), or the
start time is below earliest_start_time(operation, machine); and whenever it
fails, the engine state and every subscribed observer state are left exactly
as they were. -/
theorem c2_commit_validation_and_atomicity (e : DispatcherWithObservers) (op : Operation)
    (m t : Nat) :
    (isValidationError (e.d.commit op m t) = true ↔
      (m ∉ op.machines ∨ op ∉ e.d.unscheduled ∨
        t < e.d.earliest_start_time op (some m)))
    ∧ (isValidationError (e.d.commit op m t) = true → e.commitStep op m t = e) :=
  ⟨commit_isValidationError_iff e.d op m t,
   fun h => commit_error_of_not_ok h e rfl⟩

theorem c2_witness :
    ((isValidationError (eA.d.commit opA 0 1) = true ↔
      ((0 : Nat) ∉ opA.machines ∨ opA ∉ eA.d.unscheduled ∨
        1 < eA.d.earliest_start_time opA (some 0)))
      ∧ (isValidationError (eA.d.commit opA 0 1) = true → eA.commitStep opA 0 1 = eA))
    ∧ eA.commitStep opA 0 1 = eA :=
  ⟨c2_commit_validation_and_atomicity eA opA 0 1,
   (c2_commit_validation_and_atomicity eA opA 0 1).2 (by decide)⟩

/-- C3 counterexample: on the instance whose job 1 has no operations, after
the (accepted) commit sequence of the single operation, job 1's
remaining-operations counter is zero (and matches the scan) yet its
is-completed feature is 0, not 1 — refuting "the machine/job is marked
completed (feature value 1) exactly when its counter is zero". -/
theorem c3_counterexample :
    runICO (Dispatcher.initial instEmptyJob)
        (icoNew (Dispatcher.initial instEmptyJob) [FeatureType.JOBS] []) [(op00, 0, 0)]
      = some (dCE1,
          icoUpdate (icoNew (Dispatcher.initial instEmptyJob) [FeatureType.JOBS] []) dCE1
            (ScheduledOperation.mk op00 0 0))
    ∧ (icoUpdate (icoNew (Dispatcher.initial instEmptyJob) [FeatureType.JOBS] []) dCE1
        (ScheduledOperation.mk op00 0 0)).remaining_ops_per_job 1 = 0
    ∧ dCE1.remainingJobScan 1 = 0
    ∧ (icoUpdate (icoNew (Dispatcher.initial instEmptyJob) [FeatureType.JOBS] []) dCE1
        (ScheduledOperation.mk op00 0 0)).features_jobs 1 ≠ 1 :=
  ⟨rfl, by decide, by decide, by decide⟩

/-- C3 (amended): for every IsCompletedObserver tracking machines and/or jobs,
after any accepted sequence of commits each per-machine and per-job counter
equals the count obtained by a full scan of the unscheduled operations, and -
provided the machine is eligible for at least one instance operation (resp.
the job has at least one operation) - the machine/job is marked completed
(feature value 1) exactly when its counter is zero.  A machine or job with no
operations at all keeps counter zero without ever being marked completed. -/
theorem c3_counters_match_scan (inst : JobShopInstance) (fts : List FeatureType)
    (trace : List (Operation × Nat × Nat)) (d' : Dispatcher) (o' : IsCompletedObserver)
    (hrun : runICO (Dispatcher.initial inst)
      (icoNew (Dispatcher.initial inst) fts []) trace = some (d', o')) :
    (FeatureType.MACHINES ∈ fts →
      ∀ m, o'.remaining_ops_per_machine m = d'.remainingMachineScan m
        ∧ ((∃ opx ∈ inst.operations, m ∈ opx.machines) →
            (o'.features_machines m = 1 ↔ o'.remaining_ops_per_machine m = 0)))
    ∧ (FeatureType.JOBS ∈ fts →
      ∀ j, o'.remaining_ops_per_job j = d'.remainingJobScan j
        ∧ ((∃ opx ∈ inst.operations, opx.job_id = j) →
            (o'.features_jobs j = 1 ↔ o'.remaining_ops_per_job j = 0))) := by
  have hinv := runICO_inv inst fts trace _ _ d' o' (ico_inv_initial inst fts) hrun
  obtain ⟨-, -, hmach, hjob⟩ := hinv
  constructor
  · intro hmf m
    obtain ⟨h1, h2⟩ := hmach hmf m
    refine ⟨h1, fun hex => ?_⟩
    rw [h1]
    exact ⟨fun hf => (h2.mp hf).1, fun hz => h2.mpr ⟨hz, hex⟩⟩
  · intro hjf j
    obtain ⟨h1, h2⟩ := hjob hjf j
    refine ⟨h1, fun hex => ?_⟩
    rw [h1]
    exact ⟨fun hf => (h2.mp hf).1, fun hz => h2.mpr ⟨hz, hex⟩⟩

theorem c3_witness :
    ((icoUpdate (icoNew (Dispatcher.initial inst0) [FeatureType.MACHINES, FeatureType.JOBS] [])
        d0after (ScheduledOperation.mk op00 0 0)).remaining_ops_per_machine 0
      = d0after.remainingMachineScan 0)
    ∧ ((∃ opx ∈ inst0.operations, 0 ∈ opx.machines) →
        ((icoUpdate (icoNew (Dispatcher.initial inst0) [FeatureType.MACHINES, FeatureType.JOBS] [])
            d0after (ScheduledOperation.mk op00 0 0)).features_machines 0 = 1 ↔
          (icoUpdate (icoNew (Dispatcher.initial inst0) [FeatureType.MACHINES, FeatureType.JOBS] [])
            d0after (ScheduledOperation.mk op00 0 0)).remaining_ops_per_machine 0 = 0)) :=
  (c3_counters_match_scan inst0 [FeatureType.MACHINES, FeatureType.JOBS] [(op00, 0, 0)] d0after
    (icoUpdate (icoNew (Dispatcher.initial inst0) [FeatureType.MACHINES, FeatureType.JOBS] [])
      d0after (ScheduledOperation.mk op00 0 0)) rfl).1 (by decide) 0

/-- C4: after the EarliestStartTimeObserver's update (the base-class default,
a full recomputation), the operations table holds
earliest_start_time(operation) minus current_time at row operation_id for
EVERY still-unscheduled operation (assuming the engine invariant that
unscheduled operation ids are pairwise distinct), and the update result does
not depend on which operation was just committed - all unscheduled rows are
recomputed. -/
theorem c4_est_feature_recomputed (o : EarliestStartTimeObserver) (d : Dispatcher)
    (sop sop' : ScheduledOperation) (op : Operation)
    (hn : (d.unscheduled.map Operation.operation_id).Nodup) (hop : op ∈ d.unscheduled) :
    (estUpdate o d sop).features_operations op.operation_id =
      (d.earliest_start_time op none : Int) - (d.current_time : Int)
    ∧ estUpdate o d sop = estUpdate o d sop' := by
  constructor
  · have h := estFold_mem d d.unscheduled o.features_operations op hn hop
    simpa [estUpdate, observerUpdate, estBehavior, estInitializeFeatures,
      estUpdateJobFeatures, estUpdateMachineFeatures, estUpdateOperationFeatures,
      estOperationValue] using h
  · rfl

theorem c4_witness :
    ((estUpdate oEst dA (ScheduledOperation.mk op00 0 0)).features_operations opA.operation_id
      = (dA.earliest_start_time opA none : Int) - (dA.current_time : Int))
    ∧ estUpdate oEst dA (ScheduledOperation.mk op00 0 0)
      = estUpdate oEst dA (ScheduledOperation.mk opA 1 7) :=
  c4_est_feature_recomputed oEst dA (ScheduledOperation.mk op00 0 0)
    (ScheduledOperation.mk opA 1 7) opA (by decide) (by decide)

theorem icoInit_lookup_some {o : IsCompletedObserver} {d : Dispatcher}
    {subs : List RemainingOperationsObserver} {r : RemainingOperationsObserver}
    (h : getRemainingOperationsObserver subs o.feature_types = some r) :
    icoInitializeFeatures o d subs =
      { o with
        remaining_ops_per_job :=
          if FeatureType.JOBS ∈ o.feature_types then r.features_jobs
          else o.remaining_ops_per_job,
        remaining_ops_per_machine :=
          if FeatureType.MACHINES ∈ o.feature_types then r.features_machines
          else o.remaining_ops_per_machine } := by
  unfold icoInitializeFeatures
  rw [h]

theorem icoInit_lookup_none {o : IsCompletedObserver} {d : Dispatcher}
    {subs : List RemainingOperationsObserver}
    (h : getRemainingOperationsObserver subs o.feature_types = none) :
    icoInitializeFeatures o d subs =
      { o with
        remaining_ops_per_machine := fun m =>
          if FeatureType.MACHINES ∈ o.feature_types then d.remainingMachineScan m else 0,
        remaining_ops_per_job := fun j =>
          if FeatureType.JOBS ∈ o.feature_types then d.remainingJobScan j else 0 } := by
  unfold icoInitializeFeatures
  rw [h]

/-- C5: the IsCompletedObserver's initialize_features computes the same
counters whether a covering RemainingOperationsObserver is subscribed (its
tables are copied) or not (the observer counts the unscheduled operations
itself); neither path raises an error.  The reused observer's tables are those
it maintained along any accepted commit sequence. -/
theorem c5_observer_reuse_equals_self_compute (inst : JobShopInstance)
    (rfts fts : List FeatureType) (trace : List (Operation × Nat × Nat))
    (d' : Dispatcher) (r' : RemainingOperationsObserver)
    (hrun : runRemObs (Dispatcher.initial inst)
      (remObsInit rfts (Dispatcher.initial inst)) trace = some (d', r'))
    (hcov : ∀ ft ∈ fts, ft ∈ rfts) :
    icoNew d' fts [r'] = icoNew d' fts [] := by
  obtain ⟨hinv, hftr⟩ := runRemObs_inv trace _ _ d' r'
    (remObs_inv_initial rfts (Dispatcher.initial inst)) hrun
  have hftr' : r'.feature_types = rfts := by simpa [remObsInit] using hftr
  obtain ⟨hrm, hrj⟩ := hinv
  have hcond : (fts.all (fun ft => decide (ft ∈ r'.feature_types))) = true := by
    rw [List.all_eq_true]
    intro ft hmem
    rw [hftr']
    simpa using hcov ft hmem
  have hfind : getRemainingOperationsObserver [r'] fts = some r' :=
    List.find?_cons_of_pos _ hcond
  have hnone : getRemainingOperationsObserver ([] : List RemainingOperationsObserver) fts =
    none := rfl
  unfold icoNew
  rw [icoInit_lookup_some hfind, icoInit_lookup_none hnone]
  congr 1
  · by_cases hmm : FeatureType.MACHINES ∈ fts
    · rw [if_pos hmm]
      funext m
      rw [hrm (by rw [hftr']; exact hcov _ hmm) m]
      simp [hmm]
    · rw [if_neg hmm]
      funext m
      simp [hmm]
  · by_cases hjj : FeatureType.JOBS ∈ fts
    · rw [if_pos hjj]
      funext j
      rw [hrj (by rw [hftr']; exact hcov _ hjj) j]
      simp [hjj]
    · rw [if_neg hjj]
      funext j
      simp [hjj]

theorem c5_witness :
    icoNew (Dispatcher.initial inst0) [FeatureType.MACHINES]
        [remObsInit [FeatureType.MACHINES] (Dispatcher.initial inst0)]
      = icoNew (Dispatcher.initial inst0) [FeatureType.MACHINES] [] :=
  c5_observer_reuse_equals_self_compute inst0 [FeatureType.MACHINES] [FeatureType.MACHINES]
    [] (Dispatcher.initial inst0)
    (remObsInit [FeatureType.MACHINES] (Dispatcher.initial inst0)) rfl
    (fun _ hft => hft)

theorem icoInit_feature_types (o : IsCompletedObserver) (d : Dispatcher)
    (subs : List RemainingOperationsObserver) :
    (icoInitializeFeatures o d subs).feature_types = o.feature_types := by
  unfold icoInitializeFeatures
  cases getRemainingOperationsObserver subs o.feature_types <;> rfl

theorem create_or_get_covers (d : Dispatcher) (icos : List IsCompletedObserver)
    (rems : List RemainingOperationsObserver) (fts : List FeatureType) :
    ∀ ft ∈ fts,
      ft ∈ (create_or_get_observer d icos rems (hasAllFeatures fts) fts).feature_types := by
  intro ft hft
  unfold create_or_get_observer
  cases hfind : icos.find? (hasAllFeatures fts) with
  | some ofound =>
      have hp := List.find?_some hfind
      unfold hasAllFeatures at hp
      rw [List.all_eq_true] at hp
      simpa using hp ft hft
  | none =>
      have hico : (icoNew d fts rems).feature_types = fts := by
        unfold icoNew
        rw [icoInit_feature_types]
      rw [hico]
      exact hft

/-- C6: the ResidualGraphUpdater's is_completed_observer accessor raises
UninitializedAttributeError if and only if both remove_completed_machine_nodes
and remove_completed_job_nodes were False at construction; when at least one
is True the accessor returns, without error, an IsCompletedObserver covering
the configured feature types. -/
theorem c6_accessor_uninitialized_iff (d : Dispatcher)
    (ico_subscribers : List IsCompletedObserver)
    (rem_subscribers : List RemainingOperationsObserver) (rm rj : Bool) :
    (isUninitializedError
        (mkResidualGraphUpdater d ico_subscribers rem_subscribers rm rj).is_completed_observer
      = true ↔ (rm = false ∧ rj = false))
    ∧ (isOkResult
        (mkResidualGraphUpdater d ico_subscribers rem_subscribers rm rj).is_completed_observer
      = (rm || rj))
    ∧ (∀ o : IsCompletedObserver,
        (mkResidualGraphUpdater d ico_subscribers rem_subscribers rm rj).is_completed_observer
          = .ok o →
        ∀ ft ∈ residualFeatureTypes rm rj, ft ∈ o.feature_types) := by
  refine ⟨?_, ?_, ?_⟩
  · cases rm <;> cases rj <;>
      simp [mkResidualGraphUpdater, ResidualGraphUpdater.is_completed_observer,
        residualFeatureTypes, isUninitializedError]
  · cases rm <;> cases rj <;>
      simp [mkResidualGraphUpdater, ResidualGraphUpdater.is_completed_observer,
        residualFeatureTypes, isOkResult]
  · intro o ho ft hft
    by_cases hemp : (residualFeatureTypes rm rj).isEmpty = true
    · rw [mkResidualGraphUpdater] at ho
      simp only [hemp, if_true] at ho
      cases ho
    · have ho' : o = create_or_get_observer d ico_subscribers rem_subscribers
          (hasAllFeatures (residualFeatureTypes rm rj)) (residualFeatureTypes rm rj) := by
        rw [mkResidualGraphUpdater] at ho
        simp only [hemp, if_false, Bool.false_eq_true] at ho
        simp only [ResidualGraphUpdater.is_completed_observer] at ho
        cases ho
        rfl
      rw [ho']
      exact create_or_get_covers d ico_subscribers rem_subscribers
        (residualFeatureTypes rm rj) ft hft

theorem c6_witness :
    (isOkResult (mkResidualGraphUpdater d0 [] [] true false).is_completed_observer
      = (true || false))
    ∧ (isUninitializedError (mkResidualGraphUpdater d0 [] [] false false).is_completed_observer
      = true ↔ (false = false ∧ false = false))
    ∧ FeatureType.MACHINES ∈ (icoNew d0 (residualFeatureTypes true false) []).feature_types :=
  ⟨(c6_accessor_uninitialized_iff d0 [] [] true false).2.1,
   (c6_accessor_uninitialized_iff d0 [] [] false false).1,
   (c6_accessor_uninitialized_iff d0 [] [] true false).2.2
     (icoNew d0 (residualFeatureTypes true false) []) rfl FeatureType.MACHINES (by decide)⟩

/-- C7: during one ResidualGraphUpdater.update, remove_node is never invoked
on an already-removed node: the invocation log has no duplicates and every
logged node was unremoved in the starting graph (each phase checks is_removed
before removing); and running update a second time on the same engine and
observer state removes nothing and leaves the graph exactly as after the
first run. -/
theorem c7_removal_idempotent (d : Dispatcher) (obs : IsCompletedObserver) (rm rj : Bool)
    (g : JobShopGraph) :
    (residualUpdate d obs rm rj g).2.Nodup
    ∧ (∀ n ∈ (residualUpdate d obs rm rj g).2, g.is_removed n = false)
    ∧ residualUpdate d obs rm rj (residualUpdate d obs rm rj g).1 =
        ((residualUpdate d obs rm rj g).1, []) := by
  obtain ⟨hnd, hfresh, -, -⟩ := residualUpdate_loginv d obs rm rj g
  exact ⟨hnd, fun n hn => hfresh n hn, residualUpdate_idem d obs rm rj g⟩

theorem c7_witness :
    (residualUpdate d0after obsW true false gW).2.Nodup
    ∧ gW.is_removed 10 = false
    ∧ residualUpdate d0after obsW true false (residualUpdate d0after obsW true false gW).1
      = ((residualUpdate d0after obsW true false gW).1, []) :=
  ⟨(c7_removal_idempotent d0after obsW true false gW).1,
   (c7_removal_idempotent d0after obsW true false gW).2.1 10 (by decide),
   (c7_removal_idempotent d0after obsW true false gW).2.2⟩

/-- C8 counterexample: requesting the single (bare, not wrapped in a list)
feature type MACHINES from an observer whose supported types are only
OPERATIONS does NOT fail: _get_feature_types_list returns the singleton list
without checking it against the supported types, and the observer is
constructed with a MACHINES table - refuting "requesting a feature type
outside the observer's supported feature types fails with a
ValidationError". -/
theorem c8_counterexample :
    getFeatureTypesList [FeatureType.OPERATIONS] (.single FeatureType.MACHINES)
      = .ok [FeatureType.MACHINES]
    ∧ isValidationError
        (getFeatureTypesList [FeatureType.OPERATIONS] (.single FeatureType.MACHINES)) = false
    ∧ FeatureType.MACHINES ∉ [FeatureType.OPERATIONS]
    ∧ isValidationError
        (featureObserverInit [FeatureType.OPERATIONS] 1 d0 (.single FeatureType.MACHINES))
      = false :=
  ⟨rfl, rfl, by decide, rfl⟩

/-- C8 (amended): requesting feature types as a LIST containing a type outside
the observer's supported types fails with a ValidationError; a list of
supported types is accepted as given; None yields all supported types; a
single bare feature type bypasses the support check and is returned
unchecked; and every successful construction creates exactly one
zero-initialized table, of the recorded dimensions, per requested type. -/
theorem c8_feature_type_validation (supported fts : List FeatureType) (ft0 : FeatureType)
    (d : Dispatcher) (fsize : Nat) (req : FeatureTypesRequest) :
    ((∃ ftx ∈ fts, ftx ∉ supported) →
      isValidationError (getFeatureTypesList supported (.ofList fts)) = true)
    ∧ ((∀ ftx ∈ fts, ftx ∈ supported) →
      getFeatureTypesList supported (.ofList fts) = .ok fts)
    ∧ getFeatureTypesList supported .noneRequest = .ok supported
    ∧ getFeatureTypesList supported (.single ft0) = .ok [ft0]
    ∧ (∀ (ftsOk : List FeatureType) (st : FeatureObserverState),
        getFeatureTypesList supported req = .ok ftsOk →
        featureObserverInit supported fsize d req = .ok st →
        ∀ ft, ((st.features ft).isSome ↔ ft ∈ ftsOk)
          ∧ (ft ∈ ftsOk → st.features ft = some (fun _ => 0)
              ∧ st.feature_dimensions ft = some (numberOfEntities d ft, fsize))) := by
  refine ⟨?_, ?_, rfl, rfl, ?_⟩
  · rintro ⟨ftx, hmem, hnot⟩
    cases hall : fts.all (fun ft => decide (ft ∈ supported)) with
    | true =>
        exfalso
        rw [List.all_eq_true] at hall
        exact hnot (by simpa using hall ftx hmem)
    | false =>
        simp [getFeatureTypesList, hall, isValidationError]
  · intro hall
    have : fts.all (fun ft => decide (ft ∈ supported)) = true := by
      rw [List.all_eq_true]
      intro ftx hmem
      simpa using hall ftx hmem
    simp [getFeatureTypesList, this]
  · intro ftsOk st hreq hinit ft
    unfold featureObserverInit at hinit
    rw [hreq] at hinit
    cases hinit
    constructor
    · by_cases hft : ft ∈ ftsOk <;> simp [hft]
    · intro hft
      exact ⟨by simp [hft], by simp [hft]⟩

theorem c8_witness :
    (isValidationError
        (getFeatureTypesList [FeatureType.OPERATIONS]
          (.ofList [FeatureType.OPERATIONS, FeatureType.JOBS])) = true)
    ∧ (getFeatureTypesList [FeatureType.OPERATIONS, FeatureType.JOBS]
        (.ofList [FeatureType.JOBS]) = .ok [FeatureType.JOBS])
    ∧ (getFeatureTypesList [FeatureType.OPERATIONS] .noneRequest
        = .ok [FeatureType.OPERATIONS])
    ∧ ((stX.features FeatureType.OPERATIONS).isSome ↔
        FeatureType.OPERATIONS ∈ [FeatureType.OPERATIONS])
    ∧ (FeatureType.OPERATIONS ∈ [FeatureType.OPERATIONS] →
        stX.features FeatureType.OPERATIONS = some (fun _ => 0)
        ∧ stX.feature_dimensions FeatureType.OPERATIONS
          = some (numberOfEntities d0 FeatureType.OPERATIONS, 1)) := by
  refine ⟨?_, ?_, ?_, ?_, ?_⟩
  · exact (c8_feature_type_validation [FeatureType.OPERATIONS]
      [FeatureType.OPERATIONS, FeatureType.JOBS] FeatureType.OPERATIONS d0 1
      .noneRequest).1 ⟨FeatureType.JOBS, by decide, by decide⟩
  · exact (c8_feature_type_validation [FeatureType.OPERATIONS, FeatureType.JOBS]
      [FeatureType.JOBS] FeatureType.OPERATIONS d0 1 .noneRequest).2.1
      (by intro ftx hmem; fin_cases hmem; decide)
  · exact (c8_feature_type_validation [FeatureType.OPERATIONS] [] FeatureType.OPERATIONS d0 1
      .noneRequest).2.2.1
  · exact ((c8_feature_type_validation [FeatureType.OPERATIONS] [] FeatureType.OPERATIONS d0 1
      .noneRequest).2.2.2.2 [FeatureType.OPERATIONS] stX rfl rfl FeatureType.OPERATIONS).1
  · exact ((c8_feature_type_validation [FeatureType.OPERATIONS] [] FeatureType.OPERATIONS d0 1
      .noneRequest).2.2.2.2 [FeatureType.OPERATIONS] stX rfl rfl FeatureType.OPERATIONS).2

/-- C9: for every observer behaviour that does not override update, calling
update(scheduled_operation) has exactly the effect of the full recomputation
initialize_features on the current engine state, for every scheduled
operation argument (the argument is ignored). -/
theorem c9_default_update_is_full_recompute {σ : Type} (b : ObserverBehavior σ)
    (h : b.update_override = none) (d : Dispatcher) (o : σ)
    (sop sop' : ScheduledOperation) :
    observerUpdate b d o sop = b.initialize_features d o
    ∧ observerUpdate b d o sop = observerUpdate b d o sop' := by
  unfold observerUpdate
  rw [h]
  exact ⟨rfl, rfl⟩

theorem c9_witness :
    observerUpdate estBehavior dA oEst (ScheduledOperation.mk op00 0 0)
      = estBehavior.initialize_features dA oEst
    ∧ observerUpdate estBehavior dA oEst (ScheduledOperation.mk op00 0 0)
      = observerUpdate estBehavior dA oEst (ScheduledOperation.mk opA 1 7) :=
  c9_default_update_is_full_recompute estBehavior rfl dA oEst
    (ScheduledOperation.mk op00 0 0) (ScheduledOperation.mk opA 1 7)

/-- C10: IsCompletedObserver.update decrements the counter of EVERY machine in
the committed operation's eligible-machines list (once each, independently of
the machine the operation was actually assigned to: the update result does
not depend on the scheduled operation's machine_id or start time), writes the
machine completion feature only at the rows of those eligible machines, and
writes there 1 exactly when the new counter is zero. -/
theorem c10_decrement_all_eligible (o : IsCompletedObserver) (d : Dispatcher)
    (sop : ScheduledOperation) (hm : FeatureType.MACHINES ∈ o.feature_types) :
    (∀ m, (icoUpdate o d sop).remaining_ops_per_machine m =
        o.remaining_ops_per_machine m - (if m ∈ sop.operation.machines then 1 else 0))
    ∧ (∀ m, m ∉ sop.operation.machines →
        (icoUpdate o d sop).features_machines m = o.features_machines m)
    ∧ (∀ m, m ∈ sop.operation.machines →
        (icoUpdate o d sop).features_machines m =
          (if (icoUpdate o d sop).remaining_ops_per_machine m = 0 then 1 else 0))
    ∧ (∀ m' t', icoUpdate o d sop =
        icoUpdate o d (ScheduledOperation.mk sop.operation m' t')) := by
  refine ⟨?_, ?_, ?_, ?_⟩
  · intro m
    rw [icoUpdate_remM o d sop hm m]
    by_cases h : m ∈ sop.operation.machines <;> simp [h]
  · intro m h
    rw [icoUpdate_featM o d sop hm m]
    simp [h]
  · intro m h
    rw [icoUpdate_featM o d sop hm m, icoUpdate_remM o d sop hm m]
    simp [h]
  · intro m' t'
    cases sop
    rfl

theorem c10_witness :
    ((icoUpdate (icoNew d0 [FeatureType.MACHINES] []) d0after
        (ScheduledOperation.mk op00 0 0)).remaining_ops_per_machine 0 =
      (icoNew d0 [FeatureType.MACHINES] []).remaining_ops_per_machine 0 -
        (if (0 : Nat) ∈ (ScheduledOperation.mk op00 0 0).operation.machines then 1 else 0))
    ∧ ((icoUpdate (icoNew d0 [FeatureType.MACHINES] []) d0after
        (ScheduledOperation.mk op00 0 0)).features_machines 5 =
      (icoNew d0 [FeatureType.MACHINES] []).features_machines 5)
    ∧ ((icoUpdate (icoNew d0 [FeatureType.MACHINES] []) d0after
        (ScheduledOperation.mk op00 0 0)).features_machines 0 =
      (if (icoUpdate (icoNew d0 [FeatureType.MACHINES] []) d0after
          (ScheduledOperation.mk op00 0 0)).remaining_ops_per_machine 0 = 0 then 1 else 0))
    ∧ (icoUpdate (icoNew d0 [FeatureType.MACHINES] []) d0after
        (ScheduledOperation.mk op00 0 0) =
      icoUpdate (icoNew d0 [FeatureType.MACHINES] []) d0after
        (ScheduledOperation.mk op00 9 42)) :=
  ⟨((c10_decrement_all_eligible (icoNew d0 [FeatureType.MACHINES] []) d0after
      (ScheduledOperation.mk op00 0 0)) (by decide)).1 0,
   ((c10_decrement_all_eligible (icoNew d0 [FeatureType.MACHINES] []) d0after
      (ScheduledOperation.mk op00 0 0)) (by decide)).2.1 5 (by decide),
   ((c10_decrement_all_eligible (icoNew d0 [FeatureType.MACHINES] []) d0after
      (ScheduledOperation.mk op00 0 0)) (by decide)).2.2.1 0 (by decide),
   ((c10_decrement_all_eligible (icoNew d0 [FeatureType.MACHINES] []) d0after
      (ScheduledOperation.mk op00 0 0)) (by decide)).2.2.2 9 42⟩
